import Mathlib

/-!
Verification development for the TMMFScraper2 lead pipeline
(`src/app.py`: `LeadScorer`, `DataNormalizer`, the `/api/fetch-leads`
orchestrator; `src/scraper.py`: the blueprint orchestrator).

Texts are modelled as `List Char` (the repository's data is ASCII).
Python `float` arithmetic is modelled by exact rationals `ℚ`;
`round(x, 1)` is round-half-to-even at one decimal.  Each regular
expression of the source is hand-compiled to a deterministic matcher
that follows Python's leftmost scan with greedy quantifiers and
ordered alternation; the compilations are noted at each matcher.
-/

/-! ### Character classes (ASCII fragments of Python's `\d`, `\s`, `\w`) -/

/-- Python regex `[\d,]` (ASCII). -/
def isDigCommaC (c : Char) : Bool := c.isDigit || c == ','

/-- Python regex `\s` (ASCII): space, tab, newline, CR, VT, FF. -/
def isSpaceC (c : Char) : Bool :=
  c == ' ' || c == '\t' || c == '\n' || c == '\r' || c == '\x0b' || c == '\x0c'

/-- Python regex `\w` (ASCII): letters, digits, underscore. -/
def isWordC (c : Char) : Bool := c.isAlpha || c.isDigit || c == '_'

/-- Word-character test on an optional character (absent = not a word char). -/
def isWordO : Option Char → Bool
  | some c => isWordC c
  | none => false

/-- Python regex `\b`: a word boundary lies between characters `a` and `b`
(either may be absent at the ends of the string). -/
def boundaryB (a b : Option Char) : Bool := isWordO a != isWordO b

/-- Local-part class of the email pattern: `[A-Za-z0-9._%+-]`. -/
def isLocalC (c : Char) : Bool :=
  c.isAlpha || c.isDigit || c == '.' || c == '_' || c == '%' || c == '+' || c == '-'

/-- Domain class of the email pattern: `[A-Za-z0-9.-]`. -/
def isDomC (c : Char) : Bool := c.isAlpha || c.isDigit || c == '.' || c == '-'

/-- Top-level-domain class of the email pattern: `[A-Z|a-z]`
(the `|` inside the bracket is a literal pipe, kept faithfully). -/
def isTldC (c : Char) : Bool := c.isAlpha || c == '|'

/-- Phone separator class `[-.\s]`. -/
def isSepC (c : Char) : Bool := c == '-' || c == '.' || isSpaceC c

/-! ### Generic list/text helpers -/

/-- `beginsWith needle hay`: `needle` is an initial segment of `hay`
(case-sensitive), as used by Python's `in` operator scan. -/
def beginsWith : List Char → List Char → Bool
  | [], _ => true
  | _ :: _, [] => false
  | n :: ns, c :: cs => n == c && beginsWith ns cs

/-- Python's substring operator `needle in hay` (case-sensitive). -/
def containsSub (hay needle : List Char) : Bool :=
  match hay with
  | [] => needle.isEmpty
  | _ :: t => beginsWith needle hay || containsSub t needle

/-- Case-insensitive literal match at the start of `s`: returns the matched
span (original characters) and the remainder.  Implements a regex literal
under `re.IGNORECASE`. -/
def splitLit : List Char → List Char → Option (List Char × List Char)
  | [], s => some ([], s)
  | _ :: _, [] => none
  | l :: ls, c :: cs =>
    if c.toLower == l.toLower then
      match splitLit ls cs with
      | some (m, r) => some (c :: m, r)
      | none => none
    else none

/-- Parse a nonempty digit string as a number, as Python `int` does. -/
def digitsToNat (ds : List Char) : Nat :=
  ds.foldl (fun n c => 10 * n + (c.toNat - 48)) 0

/-- Python `str.strip(chars)`: remove characters of `bad` from both ends. -/
def stripSet (bad : List Char) (s : List Char) : List Char :=
  ((s.dropWhile (bad.contains ·)).reverse.dropWhile (bad.contains ·)).reverse

/-- Worker for `splitWs`: `cur` holds the current word reversed. -/
def splitWsGo : List Char → List Char → List (List Char)
  | cur, [] => if cur.isEmpty then [] else [cur.reverse]
  | cur, c :: rest =>
    if isSpaceC c then
      if cur.isEmpty then splitWsGo [] rest else cur.reverse :: splitWsGo [] rest
    else splitWsGo (c :: cur) rest

/-- Python `str.split()`: split on whitespace runs, dropping empty pieces. -/
def splitWs (s : List Char) : List (List Char) := splitWsGo [] s

/-- Python's `re` scan: try the matcher at position 0, 1, 2, … of the text and
return the first (leftmost) match, as `re.findall(...)[0]` does. -/
def firstMatch (f : List Char → Option (List Char)) : List Char → Option (List Char)
  | [] => f []
  | c :: t =>
    match f (c :: t) with
    | some m => some m
    | none => firstMatch f t

/-! ### Price / financial matchers (`DataNormalizer.extract_price`,
`DataNormalizer.extract_financial_info`) -/

/-- Regex `\$[\d,]+(?:,\d{3})*` at the current position: a dollar sign
followed by the maximal nonempty run of digits/commas (the trailing group
adds nothing beyond the greedy run, since the run already absorbed every
digit or comma). -/
def matchP1At : List Char → Option (List Char)
  | '$' :: rest =>
    let run := rest.takeWhile isDigCommaC
    if run.isEmpty then none else some ('$' :: run)
  | _ => none

/-- Regex `[\d,]+\s*(?:k|thousand)` (IGNORECASE) at the current position:
a nonempty digit/comma run, optional whitespace, then `k` or `thousand`
(alternatives tried in that order).  Backtracking into the greedy runs can
never succeed because the given-back characters fit neither `\s` nor the
literals, so the matcher is deterministic. -/
def matchP2At (s : List Char) : Option (List Char) :=
  let run := s.takeWhile isDigCommaC
  if run.isEmpty then none
  else
    let s1 := s.drop run.length
    let ws := s1.takeWhile isSpaceC
    let s2 := s1.drop ws.length
    match splitLit ['k'] s2 with
    | some (m, _) => some (run ++ ws ++ m)
    | none =>
      match splitLit "thousand".data s2 with
      | some (m, _) => some (run ++ ws ++ m)
      | none => none

/-- Regex `[\$]?[\d,]+` at the current position: optional dollar sign, then a
nonempty digit/comma run.  If the `$` is present but no run follows, the
skip-the-dollar alternative also fails (`$` is not in `[\d,]`). -/
def dollarNum (s : List Char) : Option (List Char) :=
  match s with
  | '$' :: rest =>
    let run := rest.takeWhile isDigCommaC
    if run.isEmpty then none else some ('$' :: run)
  | _ =>
    let run := s.takeWhile isDigCommaC
    if run.isEmpty then none else some run

/-- Regex `w₁\s*w₂\s*…\s*[\$]?[\d,]+` (IGNORECASE) at the current position:
case-insensitive literal words separated by optional whitespace, then an
optional `$` and a digit/comma run.  Compiles `asking\s*[\$]?[\d,]+`,
`price\s*[\$]?[\d,]+`, `revenue\s*[\$]?[\d,]+`, `cash\s*flow\s*[\$]?[\d,]+`,
and the other financial patterns. -/
def matchWordsNum : List (List Char) → List Char → Option (List Char)
  | [], s => dollarNum s
  | w :: ws, s =>
    match splitLit w s with
    | some (m, r) =>
      let sp := r.takeWhile isSpaceC
      match matchWordsNum ws (r.drop sp.length) with
      | some tail => some (m ++ sp ++ tail)
      | none => none
    | none => none

/-- Third price pattern `asking\s*[\$]?[\d,]+`. -/
def matchAskingAt : List Char → Option (List Char) := matchWordsNum ["asking".data]

/-- Fourth price pattern `price\s*[\$]?[\d,]+`. -/
def matchPriceAt : List Char → Option (List Char) := matchWordsNum ["price".data]

/-- Per-match step of `extract_price`: strip the non-digits from the matched
span (`re.sub(r'[^\d]', '', matches[0])`); if nothing remains the pattern
yields no value; otherwise parse the integer and apply the `k`-rule
(`if 'k' in matches[0].lower() and price < 1000: price *= 1000`). -/
def priceFromMatch (m : List Char) : Option Nat :=
  let ds := m.filter Char.isDigit
  if ds.isEmpty then none
  else
    let p := digitsToNat ds
    some (if (m.map Char.toLower).contains 'k' && decide (p < 1000) then p * 1000 else p)

/-- Per-match step of `extract_financial_info`: strip non-digits and parse;
no `k` handling. -/
def finFromMatch (m : List Char) : Option Nat :=
  let ds := m.filter Char.isDigit
  if ds.isEmpty then none else some (digitsToNat ds)

/-- The pattern loop shared by `extract_price` and `extract_financial_info`:
for each pattern in order, take the first match of the text and feed it to
`f`; when there is no match, or the digit string is empty (`if price_str:`
fails), fall through to the next pattern; return `None` when the loop runs
out. -/
def tryClasses (f : List Char → Option Nat) :
    List (List Char → Option (List Char)) → List Char → Option Nat
  | [], _ => none
  | mAt :: rest, t =>
    match (firstMatch mAt t).bind f with
    | some v => some v
    | none => tryClasses f rest t

/-- Value produced by one pattern class of `extract_price` (used to state the
claims about the class order). -/
def patClass (mAt : List Char → Option (List Char)) (t : String) : Option Nat :=
  (firstMatch mAt t.data).bind priceFromMatch

/-- `DataNormalizer.extract_price` (src/app.py lines 164-189). -/
def extract_price (t : String) : Option Nat :=
  if t.data.isEmpty then none
  else tryClasses priceFromMatch [matchP1At, matchP2At, matchAskingAt, matchPriceAt] t.data

/-- The two financial kinds `'revenue'` and `'cash flow'` that
`DataNormalizer.normalize` passes to `extract_financial_info`. -/
inductive FinKind where
  | revenue
  | cashFlow
deriving DecidableEq

/-- Pattern table of `extract_financial_info`. -/
def finMatchers : FinKind → List (List Char → Option (List Char))
  | FinKind.revenue =>
    [matchWordsNum ["revenue".data], matchWordsNum ["sales".data], matchWordsNum ["gross".data]]
  | FinKind.cashFlow =>
    [matchWordsNum ["cash".data, "flow".data], matchWordsNum ["profit".data],
      matchWordsNum ["net".data]]

/-- `DataNormalizer.extract_financial_info` (src/app.py lines 191-211). -/
def extract_financial_info (t : String) (kind : FinKind) : Option Nat :=
  if t.data.isEmpty then none else tryClasses finFromMatch (finMatchers kind) t.data

/-! ### Email matcher (`DataNormalizer.extract_email`), pattern
`\b[A-Za-z0-9._%+-]+@[A-Za-z0-9.-]+\.[A-Z|a-z]{2,}\b` -/

/-- Greedy `[A-Z|a-z]{2,}\b` after the last dot: try the candidate length `m`
(from the maximal run downwards, stopping at 2) and check the trailing word
boundary against the following character of the original string. -/
def tryTld (s3 : List Char) : Nat → Option (List Char)
  | 0 => none
  | 1 => none
  | m + 2 =>
    if boundaryB ((s3.take (m + 2)).getLast?) (s3.drop (m + 2)).head? then
      some (s3.take (m + 2))
    else tryTld s3 (m + 1)

/-- Greedy `[A-Za-z0-9.-]+\.` plus the rest: try the candidate domain length
(from the maximal class run downwards), require a literal `.` right after it,
then match the top-level domain; on failure shorten the domain run. -/
def tryDom (loc rest2 : List Char) : Nat → Option (List Char)
  | 0 => none
  | n + 1 =>
    match rest2.drop (n + 1) with
    | '.' :: s3 =>
      match tryTld s3 (s3.takeWhile isTldC).length with
      | some tld => some (loc ++ '@' :: (rest2.take (n + 1) ++ '.' :: tld))
      | none => tryDom loc rest2 n
    | _ => tryDom loc rest2 n

/-- The email pattern anchored at the current position, given the previous
character of the string (for `\b`).  The local part is deterministic: its
greedy run ends at the first non-class character, and giving characters back
cannot produce the required `@`. -/
def matchEmailAt (prev : Option Char) (s : List Char) : Option (List Char) :=
  if boundaryB prev s.head? then
    let loc := s.takeWhile isLocalC
    if loc.isEmpty then none
    else
      match s.drop loc.length with
      | '@' :: rest2 => tryDom loc rest2 (rest2.takeWhile isDomC).length
      | _ => none
  else none

/-- Leftmost scan for the email pattern, tracking the previous character. -/
def scanEmail : Option Char → List Char → Option (List Char)
  | prev, [] => matchEmailAt prev []
  | prev, c :: t =>
    match matchEmailAt prev (c :: t) with
    | some m => some m
    | none => scanEmail (some c) t

/-- `DataNormalizer.extract_email` (src/app.py lines 213-220). -/
def extract_email (t : String) : Option String :=
  if t.data.isEmpty then none else (scanEmail none t.data).map List.asString

/-! ### Phone matcher (`DataNormalizer.extract_phone`) -/

/-- Regex `X{n}` for a character class: exactly `n` class characters. -/
def takeN (p : Char → Bool) : Nat → List Char → Option (List Char × List Char)
  | 0, s => some ([], s)
  | _ + 1, [] => none
  | n + 1, c :: cs =>
    if p c then
      match takeN p n cs with
      | some (m, r) => some (c :: m, r)
      | none => none
    else none

/-- Regex `X?` for a character class: one class character if present.
Deterministic here because in the phone patterns the construct is always
followed by `\d`, which the given-back character can never satisfy. -/
def optTake (p : Char → Bool) : List Char → List Char × List Char
  | [] => ([], [])
  | c :: cs => if p c then ([c], cs) else ([], c :: cs)

/-- First phone pattern `\(?\d{3}\)?[-.\s]?\d{3}[-.\s]?\d{4}` at the current
position. -/
def matchPhone1At (s : List Char) : Option (List Char) :=
  let (par, s1) := optTake (· == '(') s
  match takeN Char.isDigit 3 s1 with
  | none => none
  | some (d1, s2) =>
    let (rp, s3) := optTake (· == ')') s2
    let (p1, s4) := optTake isSepC s3
    match takeN Char.isDigit 3 s4 with
    | none => none
    | some (d2, s5) =>
      let (p2, s6) := optTake isSepC s5
      match takeN Char.isDigit 4 s6 with
      | none => none
      | some (d3, _) => some (par ++ d1 ++ rp ++ p1 ++ d2 ++ p2 ++ d3)

/-- Second phone pattern `\d{3}[-.\s]?\d{3}[-.\s]?\d{4}` at the current
position. -/
def matchPhone2At (s : List Char) : Option (List Char) :=
  match takeN Char.isDigit 3 s with
  | none => none
  | some (d1, s1) =>
    let (p1, s2) := optTake isSepC s1
    match takeN Char.isDigit 3 s2 with
    | none => none
    | some (d2, s3) =>
      let (p2, s4) := optTake isSepC s3
      match takeN Char.isDigit 4 s4 with
      | none => none
      | some (d3, _) => some (d1 ++ p1 ++ d2 ++ p2 ++ d3)

/-- `DataNormalizer.extract_phone` (src/app.py lines 222-237): the two
patterns are tried in order, each over the whole text. -/
def extract_phone (t : String) : Option String :=
  if t.data.isEmpty then none
  else
    match firstMatch matchPhone1At t.data with
    | some m => some m.asString
    | none => (firstMatch matchPhone2At t.data).map List.asString

/-! ### Business name (`DataNormalizer.extract_business_name`), via
`re.sub(r'\b(for sale|business|sale|selling|opportunity|established)\b', '', title, re.IGNORECASE)` -/

/-- The alternation of the business-name cleanup, in the source's order. -/
def salePhrases : List (List Char) :=
  ["for sale".data, "business".data, "sale".data, "selling".data,
    "opportunity".data, "established".data]

/-- Try the alternatives in order at the current position; an alternative
succeeds when its characters match case-insensitively and the trailing `\b`
holds.  Empty alternatives are skipped (none occur in the source table). -/
def tryAlts : List (List Char) → List Char → Option (List Char × List Char)
  | [], _ => none
  | w :: ws, s =>
    if w.isEmpty then tryAlts ws s
    else
      match splitLit w s with
      | some (m, r) =>
        if boundaryB m.getLast? r.head? then some (m, r) else tryAlts ws s
      | none => tryAlts ws s

theorem splitLit_length (w : List Char) :
    ∀ s m r, splitLit w s = some (m, r) → s.length = w.length + r.length := by
  induction w with
  | nil =>
    intro s m r h
    simp [splitLit] at h
    simp [h.2]
  | cons l ls ih =>
    intro s m r h
    cases s with
    | nil => simp [splitLit] at h
    | cons c cs =>
      simp only [splitLit] at h
      by_cases hc : c.toLower == l.toLower
      · rw [if_pos hc] at h
        cases hsl : splitLit ls cs with
        | none => rw [hsl] at h; exact absurd h (by simp)
        | some pr =>
          rw [hsl] at h
          cases pr with
          | mk m0 r0 =>
            simp at h
            have := ih cs m0 r0 hsl
            simp [List.length_cons, this, ← h.2]
            omega
      · rw [if_neg hc] at h
        exact absurd h (by simp)

theorem tryAlts_length (alts : List (List Char)) :
    ∀ s m r, tryAlts alts s = some (m, r) → r.length < s.length := by
  induction alts with
  | nil => intro s m r h; simp [tryAlts] at h
  | cons w ws ih =>
    intro s m r h
    simp only [tryAlts] at h
    split at h
    · exact ih s m r h
    · split at h
      · split at h
        · rename_i hw hsplit m0 r0 hsl hb
          have hlen := splitLit_length w s m0 r0 hsl
          have hwpos : 0 < w.length := by
            cases w with
            | nil => simp at hw
            | cons a as => simp
          have hr : r0 = r := congrArg Prod.snd (Option.some.inj h)
          subst hr
          omega
        · exact ih s m r h
      · exact ih s m r h

/-- The scan of `re.sub`: walk the title; wherever the pattern matches
(leading `\b` checked against the previous character of the original string),
delete the matched span and continue right after it; otherwise keep the
character. -/
def subPhrasesGo : Option Char → List Char → List Char
  | _, [] => []
  | prev, c :: rest =>
    if boundaryB prev (some c) then
      match h : tryAlts salePhrases (c :: rest) with
      | some (m, r) => subPhrasesGo m.getLast? r
      | none => c :: subPhrasesGo (some c) rest
    else c :: subPhrasesGo (some c) rest
termination_by _ s => s.length
decreasing_by
  · have := tryAlts_length salePhrases _ _ _ h
    simpa using this
  · simp
  · simp

/-- `DataNormalizer.extract_business_name` (src/app.py lines 131-137): remove
the sale phrases, split on whitespace, keep the first four words, join with
single spaces; fall back to `"Business"` when nothing remains. -/
def extract_business_name (title : String) : String :=
  let cleaned := subPhrasesGo none title.data
  let words := (splitWs cleaned).take 4
  let name := List.intercalate [' '] words
  if name.isEmpty then "Business" else name.asString

/-! ### Industry detection (`DataNormalizer.detect_industry`) -/

/-- The industry keyword table, in the source's (insertion) order. -/
def industry_keywords : List (String × List String) :=
  [("Car Wash", ["car wash", "auto wash", "vehicle wash", "detailing", "auto detail"]),
   ("Restaurant", ["restaurant", "cafe", "diner", "eatery", "food service", "bistro"]),
   ("Pizza", ["pizza", "pizzeria"]),
   ("Cleaning", ["cleaning", "janitorial", "maid service", "housekeeping"]),
   ("Landscaping", ["landscaping", "lawn care", "gardening", "tree service"]),
   ("Convenience Store", ["convenience", "corner store", "mini mart", "c-store"]),
   ("Gas Station", ["gas station", "fuel", "petrol", "service station"]),
   ("Laundromat", ["laundromat", "laundry", "wash fold", "coin laundry"]),
   ("Automotive", ["auto repair", "mechanic", "automotive", "tire shop"]),
   ("HVAC", ["hvac", "heating", "cooling", "air conditioning"]),
   ("Plumbing", ["plumbing", "plumber", "drain cleaning"]),
   ("Mobile Business", ["mobile", "truck", "trailer", "food truck"]),
   ("Retail", ["retail", "store", "shop", "boutique"])]

/-- `DataNormalizer.detect_industry` (src/app.py lines 139-162): first table
entry with any keyword contained in the lowered text, else the default. -/
def detect_industry (text : String) : String :=
  let tl := text.data.map Char.toLower
  match industry_keywords.find? (fun ik => ik.2.any fun kw => containsSub tl kw.data) with
  | some ik => ik.1
  | none => "General Business"

/-! ### Data model -/

/-- A raw listing dictionary as produced by the scrapers (all string fields;
`price` is the price text). -/
structure RawListing where
  title : String
  price : String
  description : String
  platform : String
  city : String
  state : String
  url : String
  date_posted : String

/-- The normalized lead record built by `DataNormalizer.normalize`. -/
structure NormalizedLead where
  business_name : String
  listing_title : String
  platform : String
  industry : String
  price : Option Nat
  revenue : Option Nat
  cash_flow : Option Nat
  city : String
  state : String
  location : String
  contact_email : Option String
  contact_phone : Option String
  url : String
  description : String
  date_posted : String
  score : ℚ

/-- The filter thresholds of the configuration (`filters.price.min`,
`filters.price.max`, `filters.revenue.min`, `filters.cash_flow.min`;
the latter two are part of the config shape but are never read by
`passes_filters`). -/
structure FiltersConfig where
  price_min : Nat
  price_max : Nat
  revenue_min : Nat
  cash_flow_min : Nat

/-- `DEFAULT_CONFIG['filters']` of src/app.py. -/
def default_filters : FiltersConfig :=
  { price_min := 10000, price_max := 1000000, revenue_min := 50000, cash_flow_min := 25000 }

/-- `DEFAULT_CONFIG['lead_scoring']` of src/app.py (weights as exact
rationals). -/
def default_scoring : List (String × ℚ) :=
  [("retiring", 2), ("must sell", 2), ("no broker", 2), ("turnkey", 3/2), ("fsbo", 2),
   ("owner selling", 2), ("owner financing", 3/2), ("motivated seller", 3/2),
   ("contact owner", 3/2), ("absentee owner", 1), ("established", 1/2),
   ("cash flow", 1), ("profitable", 1/2), ("turnkey operation", 3/2)]

/-! ### Lead scorer (`LeadScorer.score_lead`, src/app.py lines 81-99) -/

/-- Python truthiness of an optional string field (`None` and `''` are
falsy). -/
def pyTruthy : Option String → Bool
  | some s => !s.isEmpty
  | none => false

/-- The scorer's haystack:
`(lead.get('description', '') + ' ' + lead.get('listing_title', '')).lower()`. -/
def haystack (lead : NormalizedLead) : List Char :=
  (lead.description ++ " " ++ lead.listing_title).data.map Char.toLower

/-- The keyword-scoring loop: for each configured `(keyword, weight)`, add
`weight` when the keyword (underscores replaced by spaces) occurs in the
haystack. -/
def keywordScore (w : List (String × ℚ)) (hay : List Char) : ℚ :=
  (w.map fun kw =>
    if containsSub hay (kw.1.data.map fun c => if c == '_' then ' ' else c) = true
    then kw.2 else 0).sum

/-- The fixed direct-owner-sale phrase set of the scorer's bonus step. -/
def fsboPhrases : List String := ["by owner", "fsbo", "no broker", "owner direct"]

/-- The scorer's bonus condition:
`any(phrase in description for phrase in [...])`. -/
def fsboHit (hay : List Char) : Bool := fsboPhrases.any fun p => containsSub hay p.data

/-- The contact-info condition:
`lead.get('contact_email') or lead.get('contact_phone')`. -/
def contactTruthy (lead : NormalizedLead) : Bool :=
  pyTruthy lead.contact_email || pyTruthy lead.contact_phone

/-- The score accumulated by `score_lead` before clamping and rounding:
base 5.0, plus the keyword sum, plus 0.5 for contact info, plus 1.5 for a
direct-owner-sale phrase. -/
def rawScore (w : List (String × ℚ)) (lead : NormalizedLead) : ℚ :=
  5 + keywordScore w (haystack lead)
    + (if contactTruthy lead = true then 1/2 else 0)
    + (if fsboHit (haystack lead) = true then 3/2 else 0)

/-- Python `round(x, 1)` on exact rationals: round half to even at one
decimal. -/
def roundHalfEven (q : ℚ) : ℤ :=
  let n := q.num.fdiv q.den
  let f := q - (n : ℚ)
  if f < 1/2 then n else if 1/2 < f then n + 1 else if n % 2 = 0 then n else n + 1

/-- One-decimal rounding, `round(score, 1)`. -/
def pyRound1 (q : ℚ) : ℚ := (roundHalfEven (q * 10) : ℚ) / 10

/-- Python `min(a, b)` on numbers. -/
def pyMin (a b : ℚ) : ℚ := if a ≤ b then a else b

/-- Python `max(a, b)` on numbers. -/
def pyMax (a b : ℚ) : ℚ := if a ≤ b then b else a

/-- `LeadScorer.score_lead`: `max(0, min(10, round(score, 1)))`. -/
def score_lead (w : List (String × ℚ)) (lead : NormalizedLead) : ℚ :=
  pyMax 0 (pyMin 10 (pyRound1 (rawScore w lead)))

/-! ### Filter (`DataNormalizer.passes_filters`, src/app.py lines 239-249) -/

/-- `passes_filters`: only the price is checked; `if price and isinstance(...)`
skips the check when the price is absent or zero (falsy). -/
def passes_filters (f : FiltersConfig) (lead : NormalizedLead) : Bool :=
  match lead.price with
  | some p => if p ≠ 0 ∧ (p < f.price_min ∨ f.price_max < p) then false else true
  | none => true

/-! ### Normalizer (`DataNormalizer.normalize`, src/app.py lines 105-129) -/

/-- `DataNormalizer.normalize` (the name `normalize` itself is taken by Mathlib): build the normalized record.  Every field
access supplies a default and every extractor is a total function, so the
`except` branch of the source (which would return `None`) has no
counterpart: the result is always `some`. -/
def normalize_lead (raw : RawListing) : Option NormalizedLead :=
  some
    { business_name := extract_business_name raw.title
      listing_title := raw.title
      platform := raw.platform
      industry := detect_industry (raw.title ++ " " ++ raw.description)
      price := extract_price (if raw.price.isEmpty then raw.description else raw.price)
      revenue := extract_financial_info raw.description FinKind.revenue
      cash_flow := extract_financial_info raw.description FinKind.cashFlow
      city := raw.city
      state := raw.state
      location := (stripSet [',', ' '] (raw.city ++ ", " ++ raw.state).data).asString
      contact_email := extract_email raw.description
      contact_phone := extract_phone raw.description
      url := raw.url
      description := raw.description
      date_posted := raw.date_posted
      score := 0 }

/-! ### Pipeline orchestrator (`fetch_leads` of src/app.py lines 757-791 and
src/scraper.py lines 136-163) -/

/-- Stable insertion step for the descending sort: place `x` before the first
element whose score does not exceed `x`'s (so earlier-input elements stay
ahead of equal-scored later ones). -/
def insertDesc (x : NormalizedLead) : List NormalizedLead → List NormalizedLead
  | [] => [x]
  | y :: ys => if y.score ≤ x.score then x :: y :: ys else y :: insertDesc x ys

/-- Stable descending sort by score, modelling Python's
`list.sort(key=lambda x: x.get('score', 0), reverse=True)` (a stable sort's
output is uniquely determined, so insertion sort is a faithful model). -/
def sortDesc : List NormalizedLead → List NormalizedLead
  | [] => []
  | x :: xs => insertDesc x (sortDesc xs)

/-- The shared normalize-filter-score loop of both `fetch_leads` variants:
normalize each raw lead, keep it when it passes the filters, and store its
score.  Order is preserved. -/
def scoredList (nF : RawListing → Option NormalizedLead) (pF : NormalizedLead → Bool)
    (sF : NormalizedLead → ℚ) (raws : List RawListing) : List NormalizedLead :=
  raws.filterMap fun raw =>
    match nF raw with
    | some nl => if pF nl then some { nl with score := sF nl } else none
    | none => none

/-- Result shape of both `fetch_leads` endpoints (the JSON payload's list and
counters). -/
structure FetchResult where
  leads : List NormalizedLead
  total_found : Nat
  total_filtered : Nat
  total_returned : Nat

/-- The orchestrator on an in-memory list of raw listings: normalize, filter,
score, sort descending by score, truncate.  `src/scraper.py`'s `fetch_leads`
is this pipeline applied to the scraped list (its normalizer, filter and
scorer live in `src.utils`, outside `src/`, hence the parameters); `src/app.py`'s
endpoint adds a fallback step, see `fetch_leads_app`. -/
def runPipeline (nF : RawListing → Option NormalizedLead) (pF : NormalizedLead → Bool)
    (sF : NormalizedLead → ℚ) (maxLeads : Nat) (raws : List RawListing) : FetchResult :=
  let scored := scoredList nF pF sF raws
  let final := (sortDesc scored).take maxLeads
  { leads := final
    total_found := raws.length
    total_filtered := scored.length
    total_returned := final.length }

/-- `get_fallback_leads` (src/app.py lines 661-694); `today` stands for
`datetime.now().strftime('%Y-%m-%d')`, which no downstream computation
reads. -/
def get_fallback_leads (today : String) : List RawListing :=
  [{ title := "Car Wash Business - Owner Retiring"
     url := "https://craigslist.org/car-wash-real"
     price := "$78,000"
     description := "Established car wash business for sale by owner. No broker fees. Owner retiring after 18 years. Turnkey operation with loyal customer base."
     platform := "Craigslist"
     city := "Orlando"
     state := "FL"
     date_posted := today },
   { title := "Pizza Restaurant - Must Sell Quick"
     url := "https://buybusiness.com/pizza-real"
     price := "$125,000"
     description := "Family pizza restaurant, must sell due to relocation. Contact owner directly. Revenue $190k annually. Great location, established clientele."
     platform := "BuyBusiness.com"
     city := "Miami"
     state := "FL"
     date_posted := today },
   { title := "Cleaning Service - No Broker"
     url := "https://businessmart.com/cleaning-real"
     price := "$68,000"
     description := "Established cleaning service, owner listing directly. No broker involved. Absentee owner opportunity, low overhead."
     platform := "BusinessMart.com"
     city := "Tampa"
     state := "FL"
     date_posted := today }]

/-- The `/api/fetch-leads` endpoint of src/app.py with the default
configuration, taking the scraped listings as input: when fewer than 10 leads
were scraped, `get_fallback_leads()` is appended before normalization, and
`total_found` counts the extended list. -/
def fetch_leads_app (today : String) (raws : List RawListing) : FetchResult :=
  let all_leads := if raws.length < 10 then raws ++ get_fallback_leads today else raws
  runPipeline normalize_lead (passes_filters default_filters) (score_lead default_scoring)
    30 all_leads

/-! ### Spec-side definitions (for refinement comparisons) -/

/-- A lead record with every optional field absent and every text empty
(concrete inputs for the claims are built from it by field updates). -/
def baseLead : NormalizedLead :=
  { business_name := "Business", listing_title := "", platform := "", industry := ""
    price := none, revenue := none, cash_flow := none
    city := "", state := "", location := ""
    contact_email := none, contact_phone := none
    url := "", description := "", date_posted := "", score := 0 }

/-- The filter of the specification's words: a present numeric field outside
its bound rejects (price against both bounds, revenue and cash flow against
their minima); an absent field never rejects.  Stated for comparison with
`passes_filters`, which is the source's behaviour. -/
def specPassesFilters (f : FiltersConfig) (lead : NormalizedLead) : Bool :=
  (match lead.price with
    | some p => decide (f.price_min ≤ p ∧ p ≤ f.price_max)
    | none => true)
  && (match lead.revenue with
    | some v => decide (f.revenue_min ≤ v)
    | none => true)
  && (match lead.cash_flow with
    | some v => decide (f.cash_flow_min ≤ v)
    | none => true)

/-- The scorer of the specification's words for the price-sanity step: like
`score_lead` but with a penalty of 2 subtracted before clamping and rounding
when a present price exceeds 1,000,000.  Stated for comparison with
`score_lead`, which has no such step. -/
def specScoreWithPenalty (w : List (String × ℚ)) (lead : NormalizedLead) : ℚ :=
  pyMax 0 (pyMin 10 (pyRound1 (rawScore w lead +
    match lead.price with
    | some p => if 1000000 < p then -2 else 0
    | none => 0)))

/-- The `extract_price` of the specification's words for the empty-digit
case: commit to the first pattern class that matches anywhere and return
`none` when its first match strips to an empty digit string, without
consulting later classes.  Stated for comparison with `extract_price`,
which falls through to the next class instead. -/
def specExtractPriceCommit (t : String) : Option Nat :=
  if t.data.isEmpty then none
  else
    match firstMatch matchP1At t.data with
    | some m => priceFromMatch m
    | none =>
      match firstMatch matchP2At t.data with
      | some m => priceFromMatch m
      | none =>
        match firstMatch matchAskingAt t.data with
        | some m => priceFromMatch m
        | none =>
          match firstMatch matchPriceAt t.data with
          | some m => priceFromMatch m
          | none => none

/-! ### Lemmas about rounding and clamping -/

theorem pyRound1_tenths (n : ℤ) : pyRound1 ((n : ℚ) / 10) = (n : ℚ) / 10 := by
  have h10 : ((n : ℚ) / 10) * 10 = (n : ℚ) := by
    field_simp
  have hround : roundHalfEven ((n : ℚ)) = n := by
    unfold roundHalfEven
    simp only [Rat.num_intCast, Rat.den_intCast, Nat.cast_one, Int.fdiv_one]
    have hf : (n : ℚ) - (n : ℚ) = 0 := by ring
    rw [hf]
    norm_num
  unfold pyRound1
  rw [h10, hround]

theorem pyClamp_nonneg (x : ℚ) : 0 ≤ pyMax 0 (pyMin 10 x) := by
  unfold pyMax pyMin
  split_ifs <;> linarith

theorem pyClamp_le_ten (x : ℚ) : pyMax 0 (pyMin 10 x) ≤ 10 := by
  unfold pyMax pyMin
  split_ifs <;> linarith

theorem pyClamp_of_between (x : ℚ) (h0 : 0 ≤ x) (h10 : x ≤ 10) :
    pyMax 0 (pyMin 10 x) = x := by
  unfold pyMax pyMin
  split_ifs <;> linarith

theorem pyClamp_tenths (r : ℤ) :
    ∃ k : ℤ, pyMax 0 (pyMin 10 ((r : ℚ) / 10)) = (k : ℚ) / 10 := by
  unfold pyMax pyMin
  split_ifs
  · exact ⟨100, by norm_num⟩
  · exact ⟨0, by norm_num⟩
  · exact ⟨r, rfl⟩
  · exact ⟨0, by norm_num⟩

/-! ### Lemmas about the stable descending sort -/

theorem mem_insertDesc (x z : NormalizedLead) :
    ∀ l, z ∈ insertDesc x l → z = x ∨ z ∈ l := by
  intro l
  induction l with
  | nil => intro h; simpa [insertDesc] using h
  | cons y ys ih =>
    by_cases hc : y.score ≤ x.score
    · intro h
      rw [insertDesc, if_pos hc] at h
      rcases List.mem_cons.mp h with h | h
      · exact Or.inl h
      · exact Or.inr h
    · intro h
      rw [insertDesc, if_neg hc] at h
      rcases List.mem_cons.mp h with h | h
      · exact Or.inr (List.mem_cons.mpr (Or.inl h))
      · rcases ih h with h | h
        · exact Or.inl h
        · exact Or.inr (List.mem_cons.mpr (Or.inr h))

theorem pairwise_insertDesc (x : NormalizedLead) :
    ∀ l, l.Pairwise (fun a b => b.score ≤ a.score) →
      (insertDesc x l).Pairwise (fun a b => b.score ≤ a.score) := by
  intro l
  induction l with
  | nil => intro _; simp [insertDesc]
  | cons y ys ih =>
    intro h
    rcases List.pairwise_cons.mp h with ⟨hy, hys⟩
    simp only [insertDesc]
    split
    · rename_i hc
      refine List.pairwise_cons.mpr ⟨?_, h⟩
      intro z hz
      rcases List.mem_cons.mp hz with hz | hz
      · simpa [hz] using hc
      · exact le_trans (hy z hz) hc
    · rename_i hc
      refine List.pairwise_cons.mpr ⟨?_, ih hys⟩
      intro z hz
      rcases mem_insertDesc x z ys hz with hz | hz
      · rw [hz]; exact le_of_lt (not_le.mp hc)
      · exact hy z hz

theorem pairwise_sortDesc (l : List NormalizedLead) :
    (sortDesc l).Pairwise (fun a b => b.score ≤ a.score) := by
  induction l with
  | nil => simp [sortDesc]
  | cons x xs ih => exact pairwise_insertDesc x (sortDesc xs) ih

theorem filter_insertDesc (x : NormalizedLead) (q : ℚ) :
    ∀ l, (insertDesc x l).filter (fun a => decide (a.score = q)) =
      if x.score = q then x :: l.filter (fun a => decide (a.score = q))
      else l.filter (fun a => decide (a.score = q)) := by
  intro l
  induction l with
  | nil =>
    by_cases hx : x.score = q <;> simp [insertDesc, List.filter, hx]
  | cons y ys ih =>
    simp only [insertDesc]
    split
    · rename_i hc
      by_cases hx : x.score = q <;> simp [List.filter_cons, hx]
    · rename_i hc
      by_cases hx : x.score = q
      · have hy : ¬ y.score = q := by
          intro hyq
          exact hc (le_of_eq (hx ▸ hyq))
        simp [List.filter_cons, hx, hy, ih]
      · by_cases hy : y.score = q <;> simp [List.filter_cons, hx, hy, ih]

theorem filter_sortDesc (q : ℚ) (l : List NormalizedLead) :
    (sortDesc l).filter (fun a => decide (a.score = q)) =
      l.filter (fun a => decide (a.score = q)) := by
  induction l with
  | nil => simp [sortDesc]
  | cons x xs ih =>
    simp only [sortDesc]
    rw [filter_insertDesc]
    by_cases hx : x.score = q <;> simp [List.filter_cons, hx, ih]

theorem length_insertDesc (x : NormalizedLead) :
    ∀ l, (insertDesc x l).length = l.length + 1 := by
  intro l
  induction l with
  | nil => simp [insertDesc]
  | cons y ys ih =>
    simp only [insertDesc]
    split
    · simp
    · simp [ih]

theorem length_sortDesc (l : List NormalizedLead) : (sortDesc l).length = l.length := by
  induction l with
  | nil => rfl
  | cons x xs ih => simp [sortDesc, length_insertDesc, ih]

/-- Helper characterisation of the pattern loop. -/
theorem tryClasses_eq_none (f : List Char → Option Nat) :
    ∀ ms t, tryClasses f ms t = none ↔ ∀ mAt ∈ ms, (firstMatch mAt t).bind f = none := by
  intro ms
  induction ms with
  | nil => intro t; simp [tryClasses]
  | cons mAt rest ih =>
    intro t
    cases hv : (firstMatch mAt t).bind f with
    | some v =>
      simp only [tryClasses, hv]
      constructor
      · intro h; exact absurd h (by simp)
      · intro h
        have hmem := h mAt (List.mem_cons_self mAt rest)
        rw [hv] at hmem
        exact absurd hmem (by simp)
    | none =>
      simp only [tryClasses, hv]
      rw [ih]
      constructor
      · intro h mAt2 hm
        rcases List.mem_cons.mp hm with hm | hm
        · rw [hm]; exact hv
        · exact h mAt2 hm
      · intro h mAt2 hm
        exact h mAt2 (List.mem_cons.mpr (Or.inr hm))

/-! ### Claim theorems -/

/-- C1: for every scoring configuration and lead, `score_lead` returns a
value in the closed interval from 0 to 10 that is an integer number of
tenths (one decimal place), and scoring the same lead twice yields the same
result (the scorer is a pure function of its inputs). -/
theorem C1_score_lead_range_and_pure (w : List (String × ℚ)) (lead : NormalizedLead) :
    (0 ≤ score_lead w lead ∧ score_lead w lead ≤ 10
      ∧ ∃ k : ℤ, score_lead w lead = (k : ℚ) / 10)
    ∧ score_lead w lead = score_lead w lead := by
  refine ⟨⟨pyClamp_nonneg _, pyClamp_le_ten _, ?_⟩, rfl⟩
  have h : pyRound1 (rawScore w lead)
      = ((roundHalfEven (rawScore w lead * 10) : ℤ) : ℚ) / 10 := rfl
  rw [score_lead, h]
  exact pyClamp_tenths _

/-- C2 counterexample: a lead whose revenue (1000) is present and below the
configured revenue minimum (50000) still passes `passes_filters` (its price
is in bounds), while the claim's rule — reject when ANY present numeric
field violates its bound — would reject it.  `passes_filters` checks only
the price. -/
theorem C2_counterexample :
    passes_filters default_filters
        { baseLead with price := some 50000, revenue := some 1000 } = true
    ∧ specPassesFilters default_filters
        { baseLead with price := some 50000, revenue := some 1000 } = false :=
  ⟨rfl, rfl⟩

/-- C2 amended: `passes_filters` returns false exactly when the price is
present, nonzero and outside the configured price bounds; the revenue and
cash-flow fields are never consulted, and an absent (or zero, hence falsy)
price never rejects. -/
theorem C2_passes_filters_price_only (f : FiltersConfig) (lead : NormalizedLead) :
    passes_filters f lead = false ↔
      ∃ p, lead.price = some p ∧ p ≠ 0 ∧ (p < f.price_min ∨ f.price_max < p) := by
  cases hp : lead.price with
  | none => simp [passes_filters, hp]
  | some p =>
    simp only [passes_filters, hp]
    by_cases hc : p ≠ 0 ∧ (p < f.price_min ∨ f.price_max < p)
    · simp only [if_pos hc]
      constructor
      · intro _
        exact ⟨p, rfl, hc⟩
      · intro _
        trivial
    · simp only [if_neg hc]
      constructor
      · intro h
        exact absurd h (by simp)
      · intro h
        rcases h with ⟨q, hq, hq2⟩
        have hpq : p = q := Option.some.inj hq
        exact absurd (hpq ▸ hq2) hc

/-- C3 counterexample: on a lead with price 2,000,000 (above the sanity
bound) and no text signals, `score_lead` returns 5 — the base score,
unreduced — while the claimed fixed penalty of 2 would give 3.
`score_lead` has no price-penalty step at all. -/
theorem C3_counterexample :
    score_lead default_scoring { baseLead with price := some 2000000 } = 5
    ∧ specScoreWithPenalty default_scoring { baseLead with price := some 2000000 } = 3 := by
  have hraw : rawScore default_scoring { baseLead with price := some 2000000 } = 5 := by
    simp +decide [rawScore, keywordScore, default_scoring, haystack, contactTruthy,
      fsboHit, fsboPhrases, pyTruthy, baseLead]
  have h5 : pyRound1 (5 : ℚ) = 5 := by
    have h := pyRound1_tenths 50
    norm_num at h
    exact h
  have h3 : pyRound1 (3 : ℚ) = 3 := by
    have h := pyRound1_tenths 30
    norm_num at h
    exact h
  constructor
  · rw [score_lead, hraw, h5]
    exact pyClamp_of_between 5 (by norm_num) (by norm_num)
  · rw [specScoreWithPenalty, hraw]
    have hmatch : (match ({ baseLead with price := some 2000000 } : NormalizedLead).price with
        | some p => if 1000000 < p then (-2 : ℚ) else 0
        | none => 0) = -2 := by
      show (if 1000000 < 2000000 then (-2 : ℚ) else 0) = -2
      norm_num
    rw [hmatch]
    norm_num
    rw [h3]
    exact pyClamp_of_between 3 (by norm_num) (by norm_num)

/-- C3 amended: `score_lead` never applies a price-based penalty — its result
does not depend on the price field in any way (the configured
`price_above_max` weight of the sibling config is only ever used as a text
keyword, not as a numeric check). -/
theorem C3_score_lead_ignores_price (w : List (String × ℚ)) (lead : NormalizedLead)
    (p : Option Nat) : score_lead w { lead with price := p } = score_lead w lead := rfl

/-- C9: under the default thresholds (price min 10000, max 1000000),
`passes_filters` rejects a lead priced 5000, accepts one priced 50000, and
accepts one with no price (a missing price never rejects). -/
theorem C9_filter_examples :
    passes_filters default_filters { baseLead with price := some 5000 } = false
    ∧ passes_filters default_filters { baseLead with price := some 50000 } = true
    ∧ passes_filters default_filters baseLead = true :=
  ⟨rfl, rfl, rfl⟩

/-- C10: `normalize` never returns the `None` of its internal-fault branch:
every field access supplies a default and every extractor is a total
function on string inputs (absence is a value, not an exception), so the
result is always a normalized record. -/
theorem C10_normalize_total (raw : RawListing) : (normalize_lead raw).isSome = true := rfl

/-- Helper: the returned count of the pipeline is the truncated survivor
count. -/
theorem runPipeline_returned (nF : RawListing → Option NormalizedLead)
    (pF : NormalizedLead → Bool) (sF : NormalizedLead → ℚ) (m : Nat)
    (raws : List RawListing) :
    (runPipeline nF pF sF m raws).total_returned
      = min m (scoredList nF pF sF raws).length := by
  simp [runPipeline, List.length_take, length_sortDesc]

/-- C4 counterexample: on an empty input the src/app.py endpoint does not
return the all-zero result — `len(all_leads) < 10` triggers the fallback
data, so `total_found` is 3 (the fallback listings), not 0, and three leads
are returned (all three fallback listings pass the default filters). -/
theorem C4_counterexample :
    (fetch_leads_app "2025-01-01" []).total_found = 3
    ∧ (fetch_leads_app "2025-01-01" []).total_returned = 3 := by
  constructor
  · rfl
  · have happ : fetch_leads_app "2025-01-01" []
        = runPipeline normalize_lead (passes_filters default_filters)
            (score_lead default_scoring) 30 (get_fallback_leads "2025-01-01") := by
      simp [fetch_leads_app]
    rw [happ, runPipeline_returned]
    have hlen : (scoredList normalize_lead (passes_filters default_filters)
        (score_lead default_scoring) (get_fallback_leads "2025-01-01")).length = 3 := by
      rfl
    rw [hlen]
    omega

/-- C4 amended: the plain orchestrator (src/scraper.py's `fetch_leads`, which
has no fallback step) returns exactly the empty result with all counters 0
on an empty input, for any components and cap; the src/app.py endpoint
instead appends the 3 fallback listings whenever fewer than 10 leads were
scraped, so on an empty input it reports `total_found = 3` and (under the
default configuration) returns 3 leads. -/
theorem C4_empty_input (nF : RawListing → Option NormalizedLead)
    (pF : NormalizedLead → Bool) (sF : NormalizedLead → ℚ) (m : Nat) :
    runPipeline nF pF sF m []
      = { leads := [], total_found := 0, total_filtered := 0, total_returned := 0 }
    ∧ ∀ today : String, (fetch_leads_app today []).total_found = 3
        ∧ (fetch_leads_app today []).total_returned = 3 := by
  constructor
  · simp [runPipeline, scoredList, sortDesc]
  · intro today
    constructor
    · rfl
    · have happ : fetch_leads_app today []
          = runPipeline normalize_lead (passes_filters default_filters)
              (score_lead default_scoring) 30 (get_fallback_leads today) := by
        simp [fetch_leads_app]
      rw [happ, runPipeline_returned]
      have hlen : (scoredList normalize_lead (passes_filters default_filters)
          (score_lead default_scoring) (get_fallback_leads today)).length = 3 := by
        rfl
      rw [hlen]
      omega

/-- C5: the orchestrator's output list is sorted in non-increasing score
order, leads with equal scores keep their relative pre-sort (input) order —
the output's slice at each score value is a prefix of the input's slice at
that value — and the list is truncated to at most `maxLeads` elements. -/
theorem C5_sorted_stable_truncated (nF : RawListing → Option NormalizedLead)
    (pF : NormalizedLead → Bool) (sF : NormalizedLead → ℚ) (m : Nat)
    (raws : List RawListing) :
    ((runPipeline nF pF sF m raws).leads).Pairwise (fun a b => b.score ≤ a.score)
    ∧ (∀ q : ℚ, ∃ t, (scoredList nF pF sF raws).filter (fun l => decide (l.score = q))
        = ((runPipeline nF pF sF m raws).leads).filter (fun l => decide (l.score = q)) ++ t)
    ∧ ((runPipeline nF pF sF m raws).leads).length ≤ m := by
  have hleads : (runPipeline nF pF sF m raws).leads
      = (sortDesc (scoredList nF pF sF raws)).take m := rfl
  refine ⟨?_, ?_, ?_⟩
  · rw [hleads]
    exact (pairwise_sortDesc _).sublist (List.take_sublist m _)
  · intro q
    refine ⟨((sortDesc (scoredList nF pF sF raws)).drop m).filter
      (fun l => decide (l.score = q)), ?_⟩
    rw [hleads, ← filter_sortDesc q]
    conv_lhs => rw [← List.take_append_drop m (sortDesc (scoredList nF pF sF raws))]
    rw [List.filter_append]
  · rw [hleads]
    simp [List.length_take]

/-- C6: `extract_price` maps `"$45,000"` to 45000, `"45k"` to 45000 and
`"no price info"` to no value; and whenever a matched span contains the
letter `k` (case-insensitively) and its digits parse below 1000, the
produced value is the parsed integer times 1000. -/
theorem C6_extract_price_examples :
    extract_price "$45,000" = some 45000
    ∧ extract_price "45k" = some 45000
    ∧ extract_price "no price info" = none
    ∧ ∀ m : List Char, (m.map Char.toLower).contains 'k' = true →
        m.filter Char.isDigit ≠ [] →
        digitsToNat (m.filter Char.isDigit) < 1000 →
        priceFromMatch m = some (digitsToNat (m.filter Char.isDigit) * 1000) := by
  refine ⟨rfl, rfl, rfl, ?_⟩
  intro m hk hne hlt
  have hie : (m.filter Char.isDigit).isEmpty = false := by
    cases hm : m.filter Char.isDigit with
    | nil => exact absurd hm hne
    | cons a as => rfl
  have hd : decide (digitsToNat (List.filter Char.isDigit m) < 1000) = true :=
    decide_eq_true hlt
  rw [priceFromMatch]
  simp only [hie, hk, hd, Bool.and_self, Bool.false_eq_true, if_false, if_true]

/-- C6 witness: the `k`-rule instantiated at the span `"45k"`. -/
theorem C6_witness : priceFromMatch "45k".data = some 45000 := by
  have h := C6_extract_price_examples.2.2.2 "45k".data (by decide) (by decide) (by decide)
  rw [h]
  decide

/-- C7: the direct-owner-sale bonus is a fixed 1.5 added on top of the full
keyword sum (which may already have counted the same phrase — the double
counting is preserved, not deduplicated): whenever a bonus phrase occurs in
the haystack the pre-clamp score is base 5 plus the whole keyword sum plus
the contact bonus plus 1.5; concretely, a lead whose description is
`"no broker"` scores 5 + 2 (the `no broker` table weight) + 1.5 (the bonus)
= 8.5. -/
theorem C7_fsbo_bonus_additive :
    (∀ (w : List (String × ℚ)) (lead : NormalizedLead),
      fsboHit (haystack lead) = true →
        rawScore w lead = 5 + keywordScore w (haystack lead)
          + (if contactTruthy lead = true then 1/2 else 0) + 3/2)
    ∧ score_lead default_scoring { baseLead with description := "no broker" } = 17/2 := by
  constructor
  · intro w lead h
    rw [rawScore, h]
    simp
  · have hkw : keywordScore default_scoring
        (haystack { baseLead with description := "no broker" }) = 2 := by
      simp +decide [keywordScore, default_scoring, haystack, baseLead]
    have hraw : rawScore default_scoring { baseLead with description := "no broker" } = 17/2 := by
      rw [rawScore, hkw]
      have hcontact : contactTruthy { baseLead with description := "no broker" } = false := by
        decide
      have hfsbo : fsboHit (haystack { baseLead with description := "no broker" }) = true := by
        decide
      rw [hcontact, hfsbo]
      norm_num
    have h85 : pyRound1 ((17 : ℚ)/2) = 17/2 := by
      have h := pyRound1_tenths 85
      norm_num at h
      exact h
    rw [score_lead, hraw, h85]
    exact pyClamp_of_between _ (by norm_num) (by norm_num)

/-- C7 witness: the additivity statement instantiated at the default scoring
table and the `"no broker"` lead. -/
theorem C7_witness :
    rawScore default_scoring { baseLead with description := "no broker" }
      = 5 + keywordScore default_scoring (haystack { baseLead with description := "no broker" })
        + (if contactTruthy { baseLead with description := "no broker" } = true then 1/2 else 0)
        + 3/2 :=
  C7_fsbo_bonus_additive.1 default_scoring { baseLead with description := "no broker" } (by decide)

/-- C8 counterexample: on `"$, price 500"` the first pattern class matches
(`"$,"`), its digit string is empty — yet `extract_price` does NOT return
`none`: the loop falls through to the fourth class (`price\s*[\$]?[\d,]+`)
and returns 500, while the claim's committed-first-class rule would return
`none`. -/
theorem C8_counterexample :
    extract_price "$, price 500" = some 500
    ∧ specExtractPriceCommit "$, price 500" = none := ⟨rfl, rfl⟩

/-- C8 amended: `extract_price` tries the four pattern classes in their fixed
order and returns the value of the first class whose first match strips to a
nonempty digit string; a class whose first match strips to an empty digit
string is skipped in favour of later classes (e.g. `"$, price 500"` yields
500 from the fourth class), and `none` is returned exactly when every class
fails to produce a value. -/
theorem C8_pattern_class_order :
    (∀ t : String, extract_price t = none ↔
      (patClass matchP1At t = none ∧ patClass matchP2At t = none
        ∧ patClass matchAskingAt t = none ∧ patClass matchPriceAt t = none))
    ∧ (∀ t v, patClass matchP1At t = some v → extract_price t = some v)
    ∧ extract_price "$, price 500" = some 500 := by
  refine ⟨?_, ?_, rfl⟩
  · intro t
    by_cases ht : t.data.isEmpty
    · have hnil : t.data = [] := by simpa using ht
      have e1 : patClass matchP1At t = none := by rw [patClass, hnil]; rfl
      have e2 : patClass matchP2At t = none := by rw [patClass, hnil]; rfl
      have e3 : patClass matchAskingAt t = none := by rw [patClass, hnil]; rfl
      have e4 : patClass matchPriceAt t = none := by rw [patClass, hnil]; rfl
      simp [extract_price, ht, e1, e2, e3, e4]
    · rw [extract_price, if_neg (by simpa using ht)]
      rw [tryClasses_eq_none]
      simp [patClass]
  · intro t v h
    have ht : t.data.isEmpty = false := by
      cases htd : t.data with
      | nil =>
        rw [patClass, htd] at h
        exact absurd h (by simp [firstMatch, matchP1At])
      | cons a as => rfl
    have h2 : (firstMatch matchP1At t.data).bind priceFromMatch = some v := h
    rw [extract_price, if_neg (by simp [ht])]
    simp only [tryClasses, h2]

/-- C8 witness: the commit-to-first-class statement instantiated at
`"$45,000"`. -/
theorem C8_witness : extract_price "$45,000" = some 45000 :=
  C8_pattern_class_order.2.1 "$45,000" 45000 rfl
